import Mathlib

/-!
Shallow embedding of `google_nest_sdm/event_media.py` (the event media cache of
python-google-nest-sdm) together with the collaborator interfaces it consumes.

The cache of `EventMediaManager` is a Python `OrderedDict[str, ImageEventBase]`;
it is embedded as an insertion-ordered association list whose front entry is the
least recently used one (`popitem(last=False)` removes the front,
`move_to_end` moves an entry to the back).  Python `int` is embedded as `Int`,
instants as `Int`, byte strings as `List Nat`, and a coroutine that can raise a
transport error as the inductive `Outcome`.  The classes `ImageEventBase`
(event.py) and `EventImageGenerator` (camera_traits.py) are outside the sources
of this module and are modelled from the spec, keeping exactly the fields the
module reads.
-/

/-- Instants (timestamps and expiration times), embedded as integers. -/
abbrev Instant := Int

/-- Raw media bytes. -/
abbrev Bytes := List Nat

/-- Modelled from the spec: the normalized event record (spec section 3,
"EventRecord"); the concrete class `ImageEventBase` lives in `event.py`, which
is not part of the sources of this module.  `event_id` identifies the concrete
sub-event, `event_session_id` the thread of related events, `event_type` is the
trait qualified name, and `expires_at` the end of the fetch window. -/
structure ImageEventBase where
  event_id : String
  event_session_id : String
  event_type : String
  timestamp : Instant
  expires_at : Instant
deriving DecidableEq

/-- A transport failure (non-2xx response or connection error). -/
inductive TransportError where
  | transport
deriving DecidableEq

/-- Outcome of awaiting a Python coroutine: either a returned value or a raised
transport error that propagates to the caller. -/
inductive Outcome (α : Type) where
  | value (v : α)
  | raised (e : TransportError)
deriving DecidableEq

/-- Modelled from the spec: the fetchable event image descriptor produced by a
trait (`EventImage` of `camera_traits.py`, not part of the sources of this
module).  `contents` holds the outcome of awaiting its `contents()` call. -/
structure EventImage where
  event_image_type : String
  contents : Outcome Bytes

/-- Modelled from the spec: the per-trait capability this module consumes
(`EventImageGenerator` of `camera_traits.py`, not part of the sources of this
module): the currently active event, the last received event, and the media
generator `generate_event_image`. -/
structure EventImageGenerator where
  active_event : Option ImageEventBase
  last_event : Option ImageEventBase
  generate_event_image : ImageEventBase → Outcome (Option EventImage)

/-- Modelled from the spec: an `EventMessage` exposes `resource_update_events`,
the parsed mapping from trait name to event record (`event.py`, not part of the
sources of this module).  An empty list embeds a message without resource
update events. -/
structure EventMessage where
  resource_update_events : List (String × ImageEventBase)

/-- `CachePolicy` (event_media.py, lines 19 to 46): how many events to keep in
memory and whether media should be pre-fetched.  Both fields are mutable via
plain getters and setters and have no side effects. -/
structure CachePolicy where
  event_cache_size : Int
  prefetch : Bool
deriving DecidableEq

/-- `DEFAULT_CACHE_SIZE` (line 16). -/
def DEFAULT_CACHE_SIZE : Int := 2

/-- `CachePolicy()` constructed with its default arguments (lines 22 to 26). -/
def CachePolicy.init : CachePolicy :=
  { event_cache_size := DEFAULT_CACHE_SIZE, prefetch := false }

/-- `Media` (lines 49 to 65). -/
structure Media where
  contents : Bytes
  event_image_type : String
deriving DecidableEq

/-- `EventMedia` (lines 68 to 100). -/
structure EventMedia where
  event_id : String
  event_type : String
  event_timestamp : Instant
  media : Media
deriving DecidableEq

/-- `EventMediaManager` state (lines 103 to 110): the trait map, the cache
policy, and the `OrderedDict` cache `_data`, front entry least recently
used. -/
structure EventMediaManager where
  event_trait_map : List (String × EventImageGenerator)
  cache_policy : CachePolicy
  data : List (String × ImageEventBase)

/-- `EventMediaManager.__init__` (lines 106 to 110): fresh `CachePolicy()` and
an empty cache. -/
def EventMediaManager.init (event_trait_map : List (String × EventImageGenerator)) :
    EventMediaManager :=
  { event_trait_map := event_trait_map, cache_policy := CachePolicy.init, data := [] }

/-- Python `dict.get`: the value stored under key `k`, if any. -/
def odGet {α : Type} (d : List (String × α)) (k : String) : Option α :=
  match d with
  | [] => none
  | p :: rest => if p.1 = k then some p.2 else odGet rest k

/-- Python dict assignment `d[k] = v`: when `k` is present the value is
replaced in place and the entry keeps its position; otherwise the new entry is
appended at the most-recent end. -/
def odSet {α : Type} (d : List (String × α)) (k : String) (v : α) : List (String × α) :=
  match d with
  | [] => [(k, v)]
  | p :: rest => if p.1 = k then (k, v) :: rest else p :: odSet rest k v

/-- `OrderedDict.move_to_end k`: the entries with key `k` move to the
most-recent end, every other entry keeps its relative order. -/
def odMoveToEnd {α : Type} (d : List (String × α)) (k : String) : List (String × α) :=
  d.filter (fun p => !(p.1 == k)) ++ d.filter (fun p => p.1 == k)

/-- A media fetch performed during a manager call: awaiting
`generator.generate_event_image(event)` or awaiting `event_image.contents()`
for the cache entry named by `event_id`. -/
inductive FetchCall where
  | generate_event_image (event_id : String)
  | fetch_contents (event_id : String)
deriving DecidableEq

/-- Result of a `get_media` call: the returned value or raised error, the
manager state when the call ends, and the media fetches it awaited. -/
structure GetMediaResult where
  outcome : Outcome (Option EventMedia)
  mgr : EventMediaManager
  calls : List FetchCall

/-- The state after `self._data.move_to_end(event_id)` (line 126). -/
def touched (m : EventMediaManager) (event_id : String) : EventMediaManager :=
  { m with data := odMoveToEnd m.data event_id }

/-- `EventMediaManager.get_media` (lines 122 to 134): look up the cache entry
(absent gives `None`), move it to the most-recent end, look up the generator
for its `event_type` (absent gives `None`), await the generator and the image
contents (either await can raise, and a raised error leaves the already
performed touch in place), and compose the `EventMedia`. -/
def get_media (m : EventMediaManager) (event_id : String) : GetMediaResult :=
  match odGet m.data event_id with
  | none => { outcome := Outcome.value none, mgr := m, calls := [] }
  | some event =>
    match odGet m.event_trait_map event.event_type with
    | none => { outcome := Outcome.value none, mgr := touched m event_id, calls := [] }
    | some generator =>
      match generator.generate_event_image event with
      | Outcome.raised e =>
        { outcome := Outcome.raised e, mgr := touched m event_id,
          calls := [FetchCall.generate_event_image event_id] }
      | Outcome.value none =>
        { outcome := Outcome.value none, mgr := touched m event_id,
          calls := [FetchCall.generate_event_image event_id] }
      | Outcome.value (some event_image) =>
        match event_image.contents with
        | Outcome.raised e =>
          { outcome := Outcome.raised e, mgr := touched m event_id,
            calls := [FetchCall.generate_event_image event_id,
                      FetchCall.fetch_contents event_id] }
        | Outcome.value contents =>
          { outcome := Outcome.value (some
              { event_id := event_id, event_type := event.event_type,
                event_timestamp := event.timestamp,
                media := { contents := contents,
                           event_image_type := event_image.event_image_type } }),
            mgr := touched m event_id,
            calls := [FetchCall.generate_event_image event_id,
                      FetchCall.fetch_contents event_id] }

/-- Stable insertion into a list sorted by descending timestamp: the new event
goes in front of the first strictly older entry, after entries with an equal
timestamp. -/
def insertDesc (e : ImageEventBase) : List ImageEventBase → List ImageEventBase
  | [] => [e]
  | x :: xs => if x.timestamp < e.timestamp then e :: x :: xs else x :: insertDesc e xs

/-- `EventMediaManager.events` (lines 136 to 140): the cached records sorted by
timestamp descending (Python stable sort). -/
def events (m : EventMediaManager) : List ImageEventBase :=
  (m.data.map Prod.snd).foldl (fun acc e => insertDesc e acc) []

/-- The cache update performed by one iteration of the loop of
`async_handle_events` (lines 148 to 154): skip the event when its trait name is
not in the trait map, otherwise store it under `event.event_id` and, when the
cache has grown beyond `event_cache_size`, pop the single least recently used
entry. -/
def ingestData (tm : List (String × EventImageGenerator)) (size : Int)
    (d : List (String × ImageEventBase)) (event_name : String) (event : ImageEventBase) :
    List (String × ImageEventBase) :=
  if (odGet tm event_name).isSome then
    let data1 := odSet d event.event_id event
    if (data1.length : Int) > size then data1.drop 1 else data1
  else d

/-- One iteration of the loop of `async_handle_events`.  The call
`self._event_trait_map[event_name].handle_event(event)` (line 151) updates
trait-internal active-event state (`camera_traits.py`, outside the sources of
this module) and neither reads nor writes the cache, the policy or the map
itself, so the embedding leaves the trait map unchanged. -/
def ingest_one (m : EventMediaManager) (event_name : String) (event : ImageEventBase) :
    EventMediaManager :=
  { m with data :=
      ingestData m.event_trait_map m.cache_policy.event_cache_size m.data event_name event }

/-- `EventMediaManager.async_handle_events` (lines 142 to 154): fold the loop
body over the resource update events.  The second component lists the media
fetches awaited during the call; the body awaits no generator call, so it is
empty. -/
def async_handle_events (m : EventMediaManager) (event_message : EventMessage) :
    EventMediaManager × List FetchCall :=
  (event_message.resource_update_events.foldl (fun acc p => ingest_one acc p.1 p.2) m, [])

/-- The loop body of `active_event_trait` (lines 170 to 180): skip traits
without an active event, keep the first active trait, and afterwards replace it
only when a later active trait has a last event with a strictly larger
expiration. -/
def activeStep (cur : Option EventImageGenerator) (p : String × EventImageGenerator) :
    Option EventImageGenerator :=
  if (p.2).active_event.isNone then cur
  else
    match cur with
    | none => some p.2
    | some best =>
      match (p.2).last_event, best.last_event with
      | some e, some be => if be.expires_at < e.expires_at then some p.2 else some best
      | _, _ => some best

/-- `EventMediaManager.active_event_trait` (lines 166 to 181). -/
def active_event_trait (m : EventMediaManager) : Option EventImageGenerator :=
  m.event_trait_map.foldl activeStep none

/-- A sequence of `async_handle_events` calls. -/
def runMessages (m : EventMediaManager) (msgs : List EventMessage) : EventMediaManager :=
  msgs.foldl (fun acc msg => (async_handle_events acc msg).1) m

/-! ### Concrete fixtures used by scenario theorems and counterexamples -/

/-- A successful event image whose contents fetch succeeds. -/
def imgOk : EventImage :=
  { event_image_type := "image/jpeg", contents := Outcome.value [1] }

/-- A generator whose media fetch succeeds. -/
def genOk : EventImageGenerator :=
  { active_event := none, last_event := none,
    generate_event_image := fun _ => Outcome.value (some imgOk) }

/-- A generator whose media fetch raises a transport error. -/
def genRaise : EventImageGenerator :=
  { active_event := none, last_event := none,
    generate_event_image := fun _ => Outcome.raised TransportError.transport }

def evA : ImageEventBase :=
  { event_id := "A", event_session_id := "sA", event_type := "t",
    timestamp := 1, expires_at := 31 }

def evB : ImageEventBase :=
  { event_id := "B", event_session_id := "sB", event_type := "t",
    timestamp := 2, expires_at := 32 }

def evC : ImageEventBase :=
  { event_id := "C", event_session_id := "sC", event_type := "t",
    timestamp := 3, expires_at := 33 }

def evD : ImageEventBase :=
  { event_id := "D", event_session_id := "sD", event_type := "t",
    timestamp := 4, expires_at := 34 }

/-- A later sub-event of the same session and with the same event id as `evA`
but different type and timestamp. -/
def evA2 : ImageEventBase :=
  { event_id := "A", event_session_id := "sA", event_type := "t",
    timestamp := 7, expires_at := 37 }

/-- Manager for the C2 scenario: one media-capable trait, cache size 2. -/
def mC2 : EventMediaManager :=
  { event_trait_map := [("t", genOk)],
    cache_policy := { event_cache_size := 2, prefetch := false }, data := [] }

/-- The state of the C2 scenario after ingesting A, B, C in order. -/
def mC2abc : EventMediaManager :=
  (async_handle_events
    (async_handle_events
      (async_handle_events mC2 { resource_update_events := [("t", evA)] }).1
      { resource_update_events := [("t", evB)] }).1
    { resource_update_events := [("t", evC)] }).1

/-- C2: with cache size 2, ingesting A, B, C leaves exactly B, C (A evicted as
least recently touched); a `get_media` for B moves B to the most-recent end, so
ingesting D afterwards evicts C and leaves exactly B, D. -/
theorem claim_C2_scenario :
    mC2abc.data.map Prod.fst = ["B", "C"]
    ∧ (get_media mC2abc "B").mgr.data.map Prod.fst = ["C", "B"]
    ∧ (async_handle_events (get_media mC2abc "B").mgr
        { resource_update_events := [("t", evD)] }).1.data.map Prod.fst = ["B", "D"] := by
  decide

/-- Manager for the C1 counterexample: the cache was filled to three entries
while `event_cache_size` was 3, and the policy was then mutated down to 1. -/
def mC1 : EventMediaManager :=
  { event_trait_map := [("t", genOk)],
    cache_policy := { event_cache_size := 1, prefetch := false },
    data := [("A", evA), ("B", evB), ("C", evC)] }

/-- C1 counterexample: after `event_cache_size` drops from 3 to 1, the next
`async_handle_events` call evicts only one entry, so the call returns with
three cached entries, above the bound 1 — eviction does not go down to the new
bound on the next ingestion. -/
theorem claim_C1_counterexample :
    mC1.cache_policy.event_cache_size = 1
    ∧ (async_handle_events mC1 { resource_update_events := [("t", evD)] }).1.data.map
        Prod.fst = ["B", "C", "D"]
    ∧ ¬ (((async_handle_events mC1 { resource_update_events := [("t", evD)] }).1.data.length : Int)
        ≤ (async_handle_events mC1
            { resource_update_events := [("t", evD)] }).1.cache_policy.event_cache_size) := by
  decide

/-- First message of the C3 counterexample: session "s", sub-event "id1". -/
def evS1 : ImageEventBase :=
  { event_id := "id1", event_session_id := "s", event_type := "t",
    timestamp := 0, expires_at := 10 }

/-- Second message of the C3 counterexample: same session "s", later sub-event
"id2". -/
def evS2 : ImageEventBase :=
  { event_id := "id2", event_session_id := "s", event_type := "t",
    timestamp := 5, expires_at := 15 }

/-- Manager for the C3 counterexample: one media-capable trait, roomy cache. -/
def mC3 : EventMediaManager :=
  { event_trait_map := [("t", genOk)],
    cache_policy := { event_cache_size := 10, prefetch := false }, data := [] }

/-- C3 counterexample: two messages whose events share the session identifier
"s" but carry distinct event ids produce two cache entries — the cache is keyed
by `event_id`, so the messages do not collapse and the `events()` count grows
from 1 to 2 on the second message. -/
theorem claim_C3_counterexample :
    evS1.event_session_id = evS2.event_session_id
    ∧ (events (async_handle_events mC3 { resource_update_events := [("t", evS1)] }).1).length = 1
    ∧ (events (async_handle_events
        (async_handle_events mC3 { resource_update_events := [("t", evS1)] }).1
        { resource_update_events := [("t", evS2)] }).1).length = 2 := by
  decide

/-- Manager for the C4 counterexample: prefetch enabled. -/
def mC4 : EventMediaManager :=
  { event_trait_map := [("t", genOk)],
    cache_policy := { event_cache_size := 10, prefetch := true }, data := [] }

/-- The arrival instant of the C4 counterexample. -/
def arrivalC4 : Instant := 150

/-- The ingested event of the C4 counterexample, unexpired at `arrivalC4`. -/
def evFresh : ImageEventBase :=
  { event_id := "F", event_session_id := "sF", event_type := "t",
    timestamp := 100, expires_at := 200 }

/-- C4 counterexample: with `prefetch = true` and an event that is unexpired at
arrival time, `async_handle_events` performs no media fetch at all (its fetch
list is empty, and the manager state holds no store to save into); the event is
merely inserted into the cache. -/
theorem claim_C4_counterexample :
    mC4.cache_policy.prefetch = true
    ∧ arrivalC4 < evFresh.expires_at
    ∧ (async_handle_events mC4 { resource_update_events := [("t", evFresh)] }).2 = []
    ∧ odGet (async_handle_events mC4
        { resource_update_events := [("t", evFresh)] }).1.data evFresh.event_id
      = some evFresh := by
  decide

/-- The cached event of the C5 scenario: a chime event whose trait has no
generator in the trait map below. -/
def evC5 : ImageEventBase :=
  { event_id := "id5", event_session_id := "s5",
    event_type := "sdm.devices.events.DoorbellChime.Chime",
    timestamp := 0, expires_at := 30 }

/-- Manager for the C5 scenario: the trait map has no entry for the cached
event type. -/
def mC5 : EventMediaManager :=
  { event_trait_map := [],
    cache_policy := { event_cache_size := 2, prefetch := false },
    data := [("id5", evC5)] }

/-- C5: `get_media` on a cached record whose `event_type` has no generator in
the trait map returns the absent value `None` — it raises no error — and the
entry stays cached (already touched).  This contradicts the claim and the
repository tests, which expect an unsupported-trait `ValueError`. -/
theorem claim_C5_behavior :
    (odGet mC5.event_trait_map evC5.event_type).isNone = true
    ∧ (get_media mC5 "id5").outcome = Outcome.value none
    ∧ (get_media mC5 "id5").mgr.data = [("id5", evC5)] := by
  decide

/-- Manager for the C6 counterexample: entry A is least recently used, entry B
most recently used, and the cache is not full. -/
def mC6 : EventMediaManager :=
  { event_trait_map := [("t", genOk)],
    cache_policy := { event_cache_size := 5, prefetch := false },
    data := [("A", evA), ("B", evB)] }

/-- C6 counterexample: merging an incoming event into the existing entry "A"
replaces the value in place but does not move the entry to the most-recent
position — after the call the order is still A, B, with B most recent. -/
theorem claim_C6_counterexample :
    (odGet mC6.data evA2.event_id).isSome = true
    ∧ (async_handle_events mC6 { resource_update_events := [("t", evA2)] }).1.data
      = [("A", evA2), ("B", evB)]
    ∧ ((async_handle_events mC6 { resource_update_events := [("t", evA2)] }).1.data.map
        Prod.fst).getLast? ≠ some "A" := by
  decide

/-- Manager for the C7 counterexample: like `mC6` but the generator raises a
transport error. -/
def mC7 : EventMediaManager :=
  { event_trait_map := [("t", genRaise)],
    cache_policy := { event_cache_size := 5, prefetch := false },
    data := [("A", evA), ("B", evB)] }

/-- C7 counterexample: a `get_media` call whose fetch raises a transport error
surfaces the error, but the cache is not left as it was: the looked-up entry
"A" was already moved to the most-recent position, so the order changed from
A, B to B, A. -/
theorem claim_C7_counterexample :
    (get_media mC7 "A").outcome = Outcome.raised TransportError.transport
    ∧ mC7.data.map Prod.fst = ["A", "B"]
    ∧ (get_media mC7 "A").mgr.data.map Prod.fst = ["B", "A"] := by
  decide

/-- Manager for the C8 counterexample: the trait map has an entry for "t" only.
-/
def mC8 : EventMediaManager :=
  { event_trait_map := [("t", genOk)],
    cache_policy := { event_cache_size := 2, prefetch := false }, data := [] }

/-- The event of the C8 counterexample, arriving under the unknown trait name
"u". -/
def evU : ImageEventBase :=
  { event_id := "U", event_session_id := "sU", event_type := "u",
    timestamp := 9, expires_at := 39 }

/-- C8 counterexample: an event whose trait name is absent from the trait map
is not inserted into the cache at all — after the call the cache is still
empty, so the event never appears in `events()` listings. -/
theorem claim_C8_counterexample :
    (odGet mC8.event_trait_map "u").isNone = true
    ∧ (async_handle_events mC8 { resource_update_events := [("u", evU)] }).1.data = []
    ∧ events (async_handle_events mC8 { resource_update_events := [("u", evU)] }).1 = [] := by
  decide

/-! ### Lemmas about the ordered-dictionary operations -/

/-- A dict assignment either replaces in place or appends one entry. -/
theorem odSet_length_cases {α : Type} (d : List (String × α)) (k : String) (v : α) :
    (odSet d k v).length = d.length ∨ (odSet d k v).length = d.length + 1 := by
  induction d with
  | nil => right; rfl
  | cons p rest ih =>
    by_cases hp : p.1 = k
    · left; simp [odSet, hp]
    · rcases ih with h | h
      · left; simp [odSet, hp, h]
      · right; simp [odSet, hp, h]

/-- Assigning to a present key keeps the number of entries. -/
theorem odSet_length_of_mem {α : Type} (d : List (String × α)) (k : String) (v : α)
    (h : (odGet d k).isSome = true) : (odSet d k v).length = d.length := by
  induction d with
  | nil => simp [odGet] at h
  | cons p rest ih =>
    by_cases hp : p.1 = k
    · simp [odSet, hp]
    · have h2 : (odGet rest k).isSome = true := by simpa [odGet, hp] using h
      simp [odSet, hp, ih h2]

/-- Assigning to a present key keeps the key order of the dictionary. -/
theorem odSet_map_fst_of_mem {α : Type} (d : List (String × α)) (k : String) (v : α)
    (h : (odGet d k).isSome = true) : (odSet d k v).map Prod.fst = d.map Prod.fst := by
  induction d with
  | nil => simp [odGet] at h
  | cons p rest ih =>
    by_cases hp : p.1 = k
    · simp [odSet, hp]
    · have h2 : (odGet rest k).isSome = true := by simpa [odGet, hp] using h
      simp [odSet, hp, ih h2]

/-- Assigning to an absent key appends the entry at the most-recent end. -/
theorem odSet_of_not_mem {α : Type} (d : List (String × α)) (k : String) (v : α)
    (h : (odGet d k).isNone = true) : odSet d k v = d ++ [(k, v)] := by
  induction d with
  | nil => rfl
  | cons p rest ih =>
    by_cases hp : p.1 = k
    · simp [odGet, hp] at h
    · have h2 : (odGet rest k).isNone = true := by simpa [odGet, hp] using h
      simp [odSet, hp, ih h2]

/-- After an assignment the assigned value is stored under the key. -/
theorem odGet_odSet_self {α : Type} (d : List (String × α)) (k : String) (v : α) :
    odGet (odSet d k v) k = some v := by
  induction d with
  | nil => simp [odSet, odGet]
  | cons p rest ih =>
    by_cases hp : p.1 = k
    · simp [odSet, hp, odGet]
    · simp [odSet, hp, odGet, ih]

/-- Moving an entry to the most-recent end permutes the dictionary. -/
theorem odMoveToEnd_perm {α : Type} (d : List (String × α)) (k : String) :
    List.Perm (odMoveToEnd d k) d := by
  unfold odMoveToEnd
  exact (List.perm_append_comm).trans (List.filter_append_perm (fun p => p.1 == k) d)

/-! ### Lemmas about event ingestion -/

/-- The cache update of one loop iteration, with the intermediate dictionary
spelled out. -/
theorem ingestData_eq (tm : List (String × EventImageGenerator)) (size : Int)
    (d : List (String × ImageEventBase)) (n : String) (e : ImageEventBase) :
    ingestData tm size d n e =
      if (odGet tm n).isSome then
        (if ((odSet d e.event_id e).length : Int) > size
          then (odSet d e.event_id e).drop 1 else odSet d e.event_id e)
      else d := rfl

/-- Each ingested event grows the cache by at most one entry and evicts at most
one entry, so the cache length stays below the maximum of its previous length
and the configured size. -/
theorem ingestData_length_le (tm : List (String × EventImageGenerator)) (size : Int)
    (d : List (String × ImageEventBase)) (n : String) (e : ImageEventBase) :
    ((ingestData tm size d n e).length : Int) ≤ max (d.length : Int) size := by
  rw [ingestData_eq]
  by_cases hn : (odGet tm n).isSome = true
  · rw [if_pos hn]
    by_cases hpop : ((odSet d e.event_id e).length : Int) > size
    · rw [if_pos hpop]
      refine le_trans ?_ (le_max_left _ _)
      rcases odSet_length_cases d e.event_id e with hL | hL <;>
        simp only [List.length_drop, hL] <;> omega
    · rw [if_neg hpop]
      exact le_trans (not_lt.mp hpop) (le_max_right _ _)
  · rw [if_neg hn]
    exact le_max_left _ _

/-- The ingestion loop leaves the cache policy unchanged. -/
theorem foldl_ingest_cache_policy (l : List (String × ImageEventBase))
    (m : EventMediaManager) :
    (l.foldl (fun acc p => ingest_one acc p.1 p.2) m).cache_policy = m.cache_policy := by
  induction l generalizing m with
  | nil => rfl
  | cons p rest ih => rw [List.foldl_cons]; exact ih (ingest_one m p.1 p.2)

/-- The ingestion loop leaves the trait map unchanged. -/
theorem foldl_ingest_event_trait_map (l : List (String × ImageEventBase))
    (m : EventMediaManager) :
    (l.foldl (fun acc p => ingest_one acc p.1 p.2) m).event_trait_map
      = m.event_trait_map := by
  induction l generalizing m with
  | nil => rfl
  | cons p rest ih => rw [List.foldl_cons]; exact ih (ingest_one m p.1 p.2)

/-- Cache length bound for a whole ingestion loop. -/
theorem foldl_ingest_length_le (l : List (String × ImageEventBase))
    (m : EventMediaManager) :
    ((l.foldl (fun acc p => ingest_one acc p.1 p.2) m).data.length : Int)
      ≤ max (m.data.length : Int) m.cache_policy.event_cache_size := by
  induction l generalizing m with
  | nil => exact le_max_left _ _
  | cons p rest ih =>
    rw [List.foldl_cons]
    have h1 := ih (ingest_one m p.1 p.2)
    have h2 : ((ingest_one m p.1 p.2).data.length : Int)
        ≤ max (m.data.length : Int) m.cache_policy.event_cache_size :=
      ingestData_length_le m.event_trait_map m.cache_policy.event_cache_size m.data p.1 p.2
    exact le_trans h1 (max_le h2 (le_max_right _ _))

/-- C1 (amended): after a `handleEvents` call the cache size is at most the
maximum of its size before the call and the current `eventCacheSize`, and the
call leaves the policy unchanged.  Each ingested event evicts at most one
entry, so a decrease of `eventCacheSize` is recovered at a rate of one eviction
per subsequently ingested event, not necessarily down to the new bound on the
next ingestion; the bound `size ≤ eventCacheSize` is preserved whenever it
already holds. -/
theorem claim_C1_amended (m : EventMediaManager) (msg : EventMessage) :
    ((async_handle_events m msg).1.data.length : Int)
      ≤ max (m.data.length : Int) m.cache_policy.event_cache_size
    ∧ (async_handle_events m msg).1.cache_policy = m.cache_policy :=
  ⟨foldl_ingest_length_le msg.resource_update_events m,
   foldl_ingest_cache_policy msg.resource_update_events m⟩

/-- A run of `async_handle_events` calls keeps the cache within the default
bound as long as the policy still is the default one. -/
theorem runMessages_bound (msgs : List EventMessage) (m : EventMediaManager)
    (hp : m.cache_policy.event_cache_size = DEFAULT_CACHE_SIZE)
    (hl : (m.data.length : Int) ≤ DEFAULT_CACHE_SIZE) :
    ((runMessages m msgs).data.length : Int) ≤ DEFAULT_CACHE_SIZE := by
  induction msgs generalizing m with
  | nil => exact hl
  | cons msg rest ih =>
    show ((runMessages (async_handle_events m msg).1 rest).data.length : Int) ≤ _
    refine ih (async_handle_events m msg).1 ?_ ?_
    · exact (congrArg CachePolicy.event_cache_size
        (foldl_ingest_cache_policy msg.resource_update_events m)).trans hp
    · have h := foldl_ingest_length_le msg.resource_update_events m
      rw [hp] at h
      exact le_trans h (max_le hl le_rfl)

/-- C10: a newly constructed manager carries the default cache policy, size 2
and no prefetch, and as long as the caller does not mutate the policy any run
of ingestion calls keeps at most 2 cached events. -/
theorem claim_C10_defaults (tm : List (String × EventImageGenerator))
    (msgs : List EventMessage) :
    (EventMediaManager.init tm).cache_policy.event_cache_size = 2
    ∧ (EventMediaManager.init tm).cache_policy.prefetch = false
    ∧ ((runMessages (EventMediaManager.init tm) msgs).data.length : Int) ≤ 2 :=
  ⟨rfl, rfl, runMessages_bound msgs (EventMediaManager.init tm) rfl
    (show ((([] : List (String × ImageEventBase)).length : Nat) : Int) ≤ DEFAULT_CACHE_SIZE by
      decide)⟩

/-! ### Lemmas about the events listing -/

/-- Inserting into the sorted listing adds one element. -/
theorem insertDesc_length (e : ImageEventBase) (l : List ImageEventBase) :
    (insertDesc e l).length = l.length + 1 := by
  induction l with
  | nil => rfl
  | cons x xs ih => by_cases h : x.timestamp < e.timestamp <;> simp [insertDesc, h, ih]

/-- The sorting fold preserves the number of elements. -/
theorem sortFold_length (l : List ImageEventBase) (acc : List ImageEventBase) :
    (l.foldl (fun acc e => insertDesc e acc) acc).length = acc.length + l.length := by
  induction l generalizing acc with
  | nil => simp
  | cons x xs ih =>
    rw [List.foldl_cons, ih (insertDesc x acc), insertDesc_length]
    simp only [List.length_cons]
    omega

/-- The events listing has exactly one element per cache entry. -/
theorem events_length (m : EventMediaManager) : (events m).length = m.data.length := by
  unfold events
  rw [sortFold_length]
  simp

/-- C3 (amended): the cache slot is resolved by `eventId`, not by
`eventSessionId`.  When the incoming event carries an `eventId` that is already
a cache key (and the cache is within its configured bound), handling the
message collapses into the existing entry: the `events()` count does not
change, and the entry afterwards stores the later message, so its
`eventType`, `eventId` and `timestamp` are those of the later message. -/
theorem claim_C3_amended (m : EventMediaManager) (n : String) (e : ImageEventBase)
    (hn : (odGet m.event_trait_map n).isSome = true)
    (hk : (odGet m.data e.event_id).isSome = true)
    (hsz : (m.data.length : Int) ≤ m.cache_policy.event_cache_size) :
    (events (async_handle_events m { resource_update_events := [(n, e)] }).1).length
      = (events m).length
    ∧ odGet (async_handle_events m { resource_update_events := [(n, e)] }).1.data e.event_id
      = some e := by
  have hdata : (async_handle_events m { resource_update_events := [(n, e)] }).1.data
      = odSet m.data e.event_id e := by
    show ingestData m.event_trait_map m.cache_policy.event_cache_size m.data n e
        = odSet m.data e.event_id e
    rw [ingestData_eq, if_pos hn]
    have hpop : ¬ (((odSet m.data e.event_id e).length : Int)
        > m.cache_policy.event_cache_size) := by
      rw [odSet_length_of_mem m.data e.event_id e hk]
      exact not_lt.mpr hsz
    rw [if_neg hpop]
  constructor
  · rw [events_length, events_length, hdata, odSet_length_of_mem m.data e.event_id e hk]
  · rw [hdata]
    exact odGet_odSet_self m.data e.event_id e

/-- Manager for the C3 witness: entry "A" cached, roomy cache. -/
def mW3 : EventMediaManager :=
  { event_trait_map := [("t", genOk)],
    cache_policy := { event_cache_size := 10, prefetch := false },
    data := [("A", evA)] }

/-- Witness for the amended C3 theorem at a concrete merge. -/
theorem claim_C3_amended_witness :
    ((odGet mW3.event_trait_map "t").isSome = true
      ∧ (odGet mW3.data evA2.event_id).isSome = true
      ∧ (mW3.data.length : Int) ≤ mW3.cache_policy.event_cache_size)
    ∧ ((events (async_handle_events mW3 { resource_update_events := [("t", evA2)] }).1).length
        = (events mW3).length
      ∧ odGet (async_handle_events mW3
          { resource_update_events := [("t", evA2)] }).1.data evA2.event_id = some evA2) :=
  ⟨⟨by decide, by decide, by decide⟩,
   claim_C3_amended mW3 "t" evA2 (by decide) (by decide) (by decide)⟩

/-- C6 (amended): a newly inserted key occupies the most-recent position of the
cache (given `eventCacheSize` at least 1), but a merge into an existing key
replaces the value in place and leaves the LRU order unchanged — ingestion does
not touch the merged entry. -/
theorem claim_C6_amended (m : EventMediaManager) (n : String) (e : ImageEventBase)
    (hn : (odGet m.event_trait_map n).isSome = true)
    (hsz : (1 : Int) ≤ m.cache_policy.event_cache_size) :
    ((odGet m.data e.event_id).isNone = true →
      ((async_handle_events m { resource_update_events := [(n, e)] }).1.data.map
          Prod.fst).getLast? = some e.event_id)
    ∧ ((odGet m.data e.event_id).isSome = true →
        (m.data.length : Int) ≤ m.cache_policy.event_cache_size →
        (async_handle_events m { resource_update_events := [(n, e)] }).1.data.map Prod.fst
          = m.data.map Prod.fst) := by
  constructor
  · intro habs
    show ((ingestData m.event_trait_map m.cache_policy.event_cache_size m.data n e).map
        Prod.fst).getLast? = some e.event_id
    rw [ingestData_eq, if_pos hn, odSet_of_not_mem m.data e.event_id e habs]
    by_cases hpop : (((m.data ++ [(e.event_id, e)]).length : Nat) : Int)
        > m.cache_policy.event_cache_size
    · rw [if_pos hpop]
      rcases hd : m.data with _ | ⟨x, xs⟩
      · exfalso
        rw [hd] at hpop
        simp at hpop
        omega
      · rw [show (List.drop 1 (x :: xs ++ [(e.event_id, e)])) = xs ++ [(e.event_id, e)]
            from rfl]
        rw [List.map_append]
        exact List.getLast?_concat _
    · rw [if_neg hpop]
      rw [List.map_append]
      exact List.getLast?_concat _
  · intro hmem hlen
    show (ingestData m.event_trait_map m.cache_policy.event_cache_size m.data n e).map
        Prod.fst = m.data.map Prod.fst
    rw [ingestData_eq, if_pos hn]
    have hpop : ¬ (((odSet m.data e.event_id e).length : Int)
        > m.cache_policy.event_cache_size) := by
      rw [odSet_length_of_mem m.data e.event_id e hmem]
      exact not_lt.mpr hlen
    rw [if_neg hpop]
    exact odSet_map_fst_of_mem m.data e.event_id e hmem

/-- Manager for the C6 witness: empty cache, size 2. -/
def mW6 : EventMediaManager :=
  { event_trait_map := [("t", genOk)],
    cache_policy := { event_cache_size := 2, prefetch := false },
    data := [] }

/-- Witness for the amended C6 theorem at a concrete manager. -/
theorem claim_C6_amended_witness :
    ((odGet mW6.event_trait_map "t").isSome = true
      ∧ (1 : Int) ≤ mW6.cache_policy.event_cache_size)
    ∧ (((odGet mW6.data evA.event_id).isNone = true →
        ((async_handle_events mW6 { resource_update_events := [("t", evA)] }).1.data.map
            Prod.fst).getLast? = some evA.event_id)
      ∧ ((odGet mW6.data evA.event_id).isSome = true →
          (mW6.data.length : Int) ≤ mW6.cache_policy.event_cache_size →
          (async_handle_events mW6 { resource_update_events := [("t", evA)] }).1.data.map
              Prod.fst = mW6.data.map Prod.fst)) :=
  ⟨⟨by decide, by decide⟩, claim_C6_amended mW6 "t" evA (by decide) (by decide)⟩

/-- Skipping: ingesting an event whose trait name is absent from the trait map
leaves the manager unchanged. -/
theorem ingest_one_of_absent (m : EventMediaManager) (n : String) (e : ImageEventBase)
    (h : (odGet m.event_trait_map n).isNone = true) : ingest_one m n e = m := by
  have hns : ¬ ((odGet m.event_trait_map n).isSome = true) := by
    rw [Option.isNone_iff_eq_none] at h
    simp [h]
  show { m with data :=
      ingestData m.event_trait_map m.cache_policy.event_cache_size m.data n e } = m
  rw [ingestData_eq, if_neg hns]

/-- C8 (amended): an event whose trait name has no generator in the trait map
is skipped entirely by ingestion — it is not inserted into the cache (so it
never appears in `events()` listings), and the call behaves exactly as if the
event were absent from the message; ingestion raises no error either way. -/
theorem claim_C8_amended (m : EventMediaManager)
    (pre post : List (String × ImageEventBase)) (n : String) (e : ImageEventBase)
    (h : (odGet m.event_trait_map n).isNone = true) :
    (async_handle_events m { resource_update_events := pre ++ (n, e) :: post }).1
      = (async_handle_events m { resource_update_events := pre ++ post }).1 := by
  show (pre ++ (n, e) :: post).foldl (fun acc p => ingest_one acc p.1 p.2) m
      = (pre ++ post).foldl (fun acc p => ingest_one acc p.1 p.2) m
  induction pre generalizing m with
  | nil =>
    rw [List.nil_append, List.nil_append, List.foldl_cons, ingest_one_of_absent m n e h]
  | cons q pre ih =>
    rw [List.cons_append, List.cons_append, List.foldl_cons, List.foldl_cons]
    exact ih (ingest_one m q.1 q.2) h

/-- Witness for the amended C8 theorem at a concrete manager. -/
theorem claim_C8_amended_witness :
    ((odGet mC8.event_trait_map "u").isNone = true)
    ∧ (async_handle_events mC8 { resource_update_events := [] ++ ("u", evU) :: [] }).1
      = (async_handle_events mC8 { resource_update_events := [] ++ [] }).1 :=
  ⟨by decide, claim_C8_amended mC8 [] [] "u" evU (by decide)⟩

/-- The cache produced by one ingestion step does not depend on the prefetch
flag. -/
theorem foldl_ingest_data_prefetch (l : List (String × ImageEventBase))
    (tm : List (String × EventImageGenerator)) (size : Int) (pf b : Bool)
    (d : List (String × ImageEventBase)) :
    (l.foldl (fun acc p => ingest_one acc p.1 p.2)
      { event_trait_map := tm,
        cache_policy := { event_cache_size := size, prefetch := b }, data := d }).data
    = (l.foldl (fun acc p => ingest_one acc p.1 p.2)
      { event_trait_map := tm,
        cache_policy := { event_cache_size := size, prefetch := pf }, data := d }).data := by
  induction l generalizing d with
  | nil => rfl
  | cons p rest ih =>
    rw [List.foldl_cons, List.foldl_cons]
    exact ih (ingestData tm size d p.1 p.2)

/-- C4 (amended): `handleEvents` never fetches media and never writes to any
store, whatever the value of `prefetch` and whether the ingested events are
expired or not: the call awaits no generator fetch at all, and the resulting
cache does not depend on the prefetch flag — the flag is stored configuration
that ingestion does not read.  Media is fetched only on demand by
`get_media`. -/
theorem claim_C4_amended (m : EventMediaManager) (msg : EventMessage) (b : Bool) :
    (async_handle_events m msg).2 = []
    ∧ (async_handle_events
        { m with cache_policy := { m.cache_policy with prefetch := b } } msg).1.data
      = (async_handle_events m msg).1.data := by
  constructor
  · rfl
  · obtain ⟨tm, ⟨size, pf⟩, d⟩ := m
    exact foldl_ingest_data_prefetch msg.resource_update_events tm size pf b d

/-! ### Lemmas about get_media failure behaviour -/

/-- When a `get_media` call raises, the entry had been found and touched: the
ending manager state is exactly the original one with the looked-up entry moved
to the most-recent end. -/
theorem get_media_mgr_of_raised (m : EventMediaManager) (k : String)
    (err : TransportError) (h : (get_media m k).outcome = Outcome.raised err) :
    (get_media m k).mgr = touched m k := by
  rcases h1 : odGet m.data k with _ | event
  · simp [get_media, h1] at h
  · rcases h2 : odGet m.event_trait_map event.event_type with _ | gen
    · simp [get_media, h1, h2] at h
    · rcases h3 : gen.generate_event_image event with v | e2
      · rcases v with _ | img
        · simp [get_media, h1, h2, h3] at h
        · rcases h4 : img.contents with c | e3
          · simp [get_media, h1, h2, h3, h4] at h
          · simp [get_media, h1, h2, h3, h4]
      · simp [get_media, h1, h2, h3]

/-- C7 (amended): when the fetch step of `get_media` raises a transport error,
the error propagates and no cache entry is added, removed or modified — but
the call is not free of cache effects: the looked-up entry was already moved to
the most-recent position before the fetch, so the failed call leaves the cache
equal to the original with that entry moved to the end (a permutation of the
original entries); policy and trait map are untouched. -/
theorem claim_C7_amended (m : EventMediaManager) (k : String) (err : TransportError)
    (h : (get_media m k).outcome = Outcome.raised err) :
    (get_media m k).mgr.data = odMoveToEnd m.data k
    ∧ List.Perm ((get_media m k).mgr.data) m.data
    ∧ (get_media m k).mgr.cache_policy = m.cache_policy
    ∧ (get_media m k).mgr.event_trait_map = m.event_trait_map := by
  have hm := get_media_mgr_of_raised m k err h
  exact ⟨by rw [hm]; rfl, by rw [hm]; exact odMoveToEnd_perm m.data k,
    by rw [hm]; rfl, by rw [hm]; rfl⟩

/-- Witness for the amended C7 theorem at a concrete failing fetch. -/
theorem claim_C7_amended_witness :
    ((get_media mC7 "A").outcome = Outcome.raised TransportError.transport)
    ∧ ((get_media mC7 "A").mgr.data = odMoveToEnd mC7.data "A"
      ∧ List.Perm ((get_media mC7 "A").mgr.data) mC7.data
      ∧ (get_media mC7 "A").mgr.cache_policy = mC7.cache_policy
      ∧ (get_media mC7 "A").mgr.event_trait_map = mC7.event_trait_map) :=
  ⟨by decide, claim_C7_amended mC7 "A" TransportError.transport (by decide)⟩

/-! ### Lemmas about the active-event resolver -/

/-- When no trait of the list has an active event, the resolver fold returns
its accumulator. -/
theorem activeFold_acc_none (l : List (String × EventImageGenerator))
    (acc : Option EventImageGenerator)
    (h : ∀ p ∈ l, (p.2).active_event = none) : l.foldl activeStep acc = acc := by
  induction l generalizing acc with
  | nil => rfl
  | cons p rest ih =>
    rw [List.foldl_cons]
    have hp := h p (List.mem_cons_self p rest)
    have hstep : activeStep acc p = acc := by simp [activeStep, hp]
    rw [hstep]
    exact ih acc (fun q hq => h q (List.mem_cons_of_mem p hq))

/-- The resolver step never discards an already selected trait. -/
theorem activeStep_isSome_left (cur : Option EventImageGenerator)
    (p : String × EventImageGenerator) (h : cur.isSome = true) :
    (activeStep cur p).isSome = true := by
  rcases h1 : (p.2).active_event with _ | e
  · simpa [activeStep, h1] using h
  · rcases hc : cur with _ | best
    · rw [hc] at h; simp at h
    · rcases h2 : (p.2).last_event with _ | le <;>
        rcases h3 : best.last_event with _ | ble <;>
          simp [activeStep, h1, h2, h3] <;> split <;> simp

/-- The resolver step selects a trait whenever the seen trait is active. -/
theorem activeStep_isSome_right (cur : Option EventImageGenerator)
    (p : String × EventImageGenerator) (h : (p.2).active_event.isSome = true) :
    (activeStep cur p).isSome = true := by
  rcases h1 : (p.2).active_event with _ | e
  · rw [h1] at h; simp at h
  · rcases cur with _ | best
    · simp [activeStep, h1]
    · rcases h2 : (p.2).last_event with _ | le <;>
        rcases h3 : best.last_event with _ | ble <;>
          simp [activeStep, h1, h2, h3] <;> split <;> simp

/-- The resolver fold selects some trait as soon as the accumulator holds one
or some trait of the list is active. -/
theorem activeFold_isSome (l : List (String × EventImageGenerator))
    (acc : Option EventImageGenerator)
    (h : acc.isSome = true ∨ ∃ p ∈ l, (p.2).active_event.isSome = true) :
    (l.foldl activeStep acc).isSome = true := by
  induction l generalizing acc with
  | nil =>
    rcases h with h | ⟨p, hp, _⟩
    · exact h
    · exact absurd hp (List.not_mem_nil p)
  | cons q rest ih =>
    rw [List.foldl_cons]
    rcases h with h | ⟨p, hp, hact⟩
    · exact ih (activeStep acc q) (Or.inl (activeStep_isSome_left acc q h))
    · rcases List.mem_cons.mp hp with rfl | hp2
      · exact ih (activeStep acc p) (Or.inl (activeStep_isSome_right acc p hact))
      · exact ih (activeStep acc q) (Or.inr ⟨p, hp2, hact⟩)

/-- Maximality invariant of the resolver fold: provided that every active trait
reports a last event equal to its active event, the fold result is an active
trait whose event expiration dominates the expirations of every active trait of
the list and of the accumulator. -/
theorem activeFold_max (l : List (String × EventImageGenerator)) :
    ∀ acc : Option EventImageGenerator,
    (∀ p ∈ l, ∀ e, (p.2).active_event = some e → (p.2).last_event = some e) →
    (∀ b, acc = some b → ∃ e, b.active_event = some e ∧ b.last_event = some e) →
    ∀ t : EventImageGenerator, l.foldl activeStep acc = some t →
    ∃ e, t.active_event = some e ∧ t.last_event = some e
      ∧ (∀ p ∈ l, ∀ eu, (p.2).active_event = some eu → eu.expires_at ≤ e.expires_at)
      ∧ (∀ b eb, acc = some b → b.last_event = some eb → eb.expires_at ≤ e.expires_at) := by
  induction l with
  | nil =>
    intro acc _ hacc t ht
    rw [List.foldl_nil] at ht
    obtain ⟨e, hae, hle⟩ := hacc t ht
    refine ⟨e, hae, hle, by simp, ?_⟩
    intro b eb hb hlb
    rw [ht] at hb
    injection hb with hb
    subst hb
    rw [hle] at hlb
    injection hlb with hlb
    rw [← hlb]
  | cons q rest ih =>
    intro acc hl hacc t ht
    rw [List.foldl_cons] at ht
    have hlrest : ∀ p ∈ rest, ∀ e, (p.2).active_event = some e → (p.2).last_event = some e :=
      fun p hp => hl p (List.mem_cons_of_mem q hp)
    rcases hA : (q.2).active_event with _ | eq0
    · have hstep : activeStep acc q = acc := by simp [activeStep, hA]
      rw [hstep] at ht
      obtain ⟨e, hae, hle, hrest, haccdom⟩ := ih acc hlrest hacc t ht
      refine ⟨e, hae, hle, ?_, haccdom⟩
      intro p hp eu hpe
      rcases List.mem_cons.mp hp with rfl | hp2
      · rw [hA] at hpe
        exact Option.noConfusion hpe
      · exact hrest p hp2 eu hpe
    · have hqlast : (q.2).last_event = some eq0 := hl q (List.mem_cons_self q rest) eq0 hA
      rcases hc : acc with _ | best
      · have hstep : activeStep acc q = some q.2 := by rw [hc]; simp [activeStep, hA]
        rw [hstep] at ht
        have hacc2 : ∀ b, (some (q.2) : Option EventImageGenerator) = some b →
            ∃ e, b.active_event = some e ∧ b.last_event = some e := by
          intro b hb
          injection hb with hb
          subst hb
          exact ⟨eq0, hA, hqlast⟩
        obtain ⟨e, hae, hle, hrest, haccdom⟩ := ih (some q.2) hlrest hacc2 t ht
        have hq_le : eq0.expires_at ≤ e.expires_at := haccdom q.2 eq0 rfl hqlast
        refine ⟨e, hae, hle, ?_, ?_⟩
        · intro p hp eu hpe
          rcases List.mem_cons.mp hp with rfl | hp2
          · rw [hA] at hpe
            injection hpe with hpe
            rw [← hpe]
            exact hq_le
          · exact hrest p hp2 eu hpe
        · intro b eb hb _
          exact Option.noConfusion hb
      · obtain ⟨eb0, hbA, hbL⟩ := hacc best hc
        by_cases hcmp : eb0.expires_at < eq0.expires_at
        · have hstep : activeStep acc q = some q.2 := by
            rw [hc]; simp [activeStep, hA, hqlast, hbL, hcmp]
          rw [hstep] at ht
          have hacc2 : ∀ b, (some (q.2) : Option EventImageGenerator) = some b →
              ∃ e, b.active_event = some e ∧ b.last_event = some e := by
            intro b hb
            injection hb with hb
            subst hb
            exact ⟨eq0, hA, hqlast⟩
          obtain ⟨e, hae, hle, hrest, haccdom⟩ := ih (some q.2) hlrest hacc2 t ht
          have hq_le : eq0.expires_at ≤ e.expires_at := haccdom q.2 eq0 rfl hqlast
          refine ⟨e, hae, hle, ?_, ?_⟩
          · intro p hp eu hpe
            rcases List.mem_cons.mp hp with rfl | hp2
            · rw [hA] at hpe
              injection hpe with hpe
              rw [← hpe]
              exact hq_le
            · exact hrest p hp2 eu hpe
          · intro b eb hb hlb
            injection hb with hb
            subst hb
            rw [hbL] at hlb
            injection hlb with hlb
            rw [← hlb]
            exact le_trans (le_of_lt hcmp) hq_le
        · have hstep : activeStep acc q = some best := by
            rw [hc]; simp [activeStep, hA, hqlast, hbL, hcmp]
          rw [hstep] at ht
          have hacc2 : ∀ b, (some best : Option EventImageGenerator) = some b →
              ∃ e, b.active_event = some e ∧ b.last_event = some e := by
            intro b hb
            injection hb with hb
            subst hb
            exact ⟨eb0, hbA, hbL⟩
          obtain ⟨e, hae, hle, hrest, haccdom⟩ := ih (some best) hlrest hacc2 t ht
          have hb_le : eb0.expires_at ≤ e.expires_at := haccdom best eb0 rfl hbL
          have hq_le : eq0.expires_at ≤ e.expires_at := le_trans (not_lt.mp hcmp) hb_le
          refine ⟨e, hae, hle, ?_, ?_⟩
          · intro p hp eu hpe
            rcases List.mem_cons.mp hp with rfl | hp2
            · rw [hA] at hpe
              injection hpe with hpe
              rw [← hpe]
              exact hq_le
            · exact hrest p hp2 eu hpe
          · intro b eb hb hlb
            injection hb with hb
            subst hb
            rw [hbL] at hlb
            injection hlb with hlb
            rw [← hlb]
            exact hb_le

/-- C9: provided every active trait reports its active event as its last event,
the resolver returns absent exactly when no trait is active, returns some trait
whenever one is active, and any returned trait is active with an event whose
`expires_at` is at least the `expires_at` of every active trait — the trait
with the latest expiration wins, independent of the timestamps. -/
theorem claim_C9_active_event_trait (m : EventMediaManager)
    (hlast : ∀ p ∈ m.event_trait_map, ∀ e,
      (p.2).active_event = some e → (p.2).last_event = some e) :
    ((∀ p ∈ m.event_trait_map, (p.2).active_event = none) → active_event_trait m = none)
    ∧ ((∃ p ∈ m.event_trait_map, (p.2).active_event.isSome = true) →
        (active_event_trait m).isSome = true)
    ∧ (∀ t, active_event_trait m = some t →
        ∃ e, t.active_event = some e
          ∧ ∀ p ∈ m.event_trait_map, ∀ eu,
              (p.2).active_event = some eu → eu.expires_at ≤ e.expires_at) := by
  refine ⟨?_, ?_, ?_⟩
  · intro h
    exact activeFold_acc_none m.event_trait_map none h
  · intro h
    exact activeFold_isSome m.event_trait_map none (Or.inr h)
  · intro t ht
    obtain ⟨e, hae, _, hdom, _⟩ := activeFold_max m.event_trait_map none hlast
      (by intro b hb; exact Option.noConfusion hb) t ht
    exact ⟨e, hae, hdom⟩

/-- Active event of the first witness trait: early timestamp order but late
expiration. -/
def evT1 : ImageEventBase :=
  { event_id := "e1", event_session_id := "s1", event_type := "ta",
    timestamp := 100, expires_at := 105 }

/-- Active event of the second witness trait: older timestamp, latest
expiration. -/
def evT2 : ImageEventBase :=
  { event_id := "e2", event_session_id := "s2", event_type := "tb",
    timestamp := 50, expires_at := 200 }

/-- First witness trait, active with `evT1`. -/
def genActive1 : EventImageGenerator :=
  { active_event := some evT1, last_event := some evT1,
    generate_event_image := fun _ => Outcome.value none }

/-- Second witness trait, active with `evT2`. -/
def genActive2 : EventImageGenerator :=
  { active_event := some evT2, last_event := some evT2,
    generate_event_image := fun _ => Outcome.value none }

/-- Manager for the C9 witness: two simultaneously active traits. -/
def mW9 : EventMediaManager :=
  { event_trait_map := [("ta", genActive1), ("tb", genActive2)],
    cache_policy := CachePolicy.init, data := [] }

/-- Witness for the C9 theorem on a concrete manager with two active traits. -/
theorem claim_C9_witness :
    (∀ p ∈ mW9.event_trait_map, ∀ e,
      (p.2).active_event = some e → (p.2).last_event = some e)
    ∧ (((∀ p ∈ mW9.event_trait_map, (p.2).active_event = none) →
          active_event_trait mW9 = none)
      ∧ ((∃ p ∈ mW9.event_trait_map, (p.2).active_event.isSome = true) →
          (active_event_trait mW9).isSome = true)
      ∧ (∀ t, active_event_trait mW9 = some t →
          ∃ e, t.active_event = some e
            ∧ ∀ p ∈ mW9.event_trait_map, ∀ eu,
                (p.2).active_event = some eu → eu.expires_at ≤ e.expires_at)) := by
  have hW9 : ∀ p ∈ mW9.event_trait_map, ∀ e,
      (p.2).active_event = some e → (p.2).last_event = some e := by
    intro p hp e he
    rcases List.mem_cons.mp hp with rfl | hp2
    · exact he
    rcases List.mem_cons.mp hp2 with rfl | hp3
    · exact he
    exact absurd hp3 (List.not_mem_nil p)
  exact ⟨hW9, claim_C9_active_event_trait mW9 hW9⟩
